import Mathlib

/-!
Verification model of `ccdproc/ccddata.py`: the `CCDData` frame value object,
its property setters, the scalar and frame arithmetic engine, the FITS-safe
metadata insertion helper, and the FITS serialization bridge
(`CCDData.to_hdu`, `fits_ccddata_reader`, `fits_ccddata_writer`).

Numeric pixel arrays are modelled as rational-valued flat arrays with an
explicit shape.  External collaborators (astropy units, FITS container,
WCS, the `NDDataArray` base class) are modelled as minimal capabilities,
each marked in its doc comment; everything else is translated line by line
from the source module.
-/

/-- Rational-valued n-dimensional numeric array: shape plus row-major flat payload
(models a `numpy.ndarray`). -/
structure NArr where
  shape : List Nat
  flat : List ℚ
deriving DecidableEq, Repr

/-- Boolean pixel-mask array (models a boolean `numpy.ndarray`). -/
structure BArr where
  shape : List Nat
  flat : List Bool
deriving DecidableEq, Repr

/-- `mask.astype(np.uint8)`: the boolean mask encoded as an unsigned 8-bit array. -/
def uint8OfBArr (m : BArr) : NArr :=
  ⟨m.shape, m.flat.map (fun b => if b then 1 else 0)⟩

/-- `data.astype(np.bool_)`: a numeric array coerced to boolean (nonzero is true). -/
def boolOfNArr (a : NArr) : BArr :=
  ⟨a.shape, a.flat.map (fun q => if q = 0 then false else true)⟩

/-- Physical unit, modelling the external astropy units capability: a canonical
string form (what `to_string` returns), a dimension identifier, and a scale
factor to the base unit of that dimension.  Two units are equal exactly when
all three components agree, mirroring astropy `Unit` equality. -/
structure PhysUnit where
  sym : String
  dim : String
  scale : ℚ
deriving DecidableEq, Repr

/-- `u.dimensionless_unscaled`. -/
def dimensionlessU : PhysUnit := ⟨"", "1", 1⟩

/-- The `adu` detector unit (its own dimension: not convertible to dimensionless). -/
def aduU : PhysUnit := ⟨"adu", "adu", 1⟩

/-- Metres, with centimetres as the base length unit of the model. -/
def meterU : PhysUnit := ⟨"m", "length", 100⟩

/-- Centimetres. -/
def cmU : PhysUnit := ⟨"cm", "length", 1⟩

/-- Electrons. -/
def electronU : PhysUnit := ⟨"electron", "electron", 1⟩

/-- The units the model's parser recognizes. -/
def unitTable : List PhysUnit := [dimensionlessU, aduU, meterU, cmU, electronU]

/-- Models `astropy.units.Unit(string)`: parsing a unit string, `none` when the
string is not recognized.  The empty string parses to the dimensionless unit,
as in astropy. -/
def parseUnit (s : String) : Option PhysUnit :=
  unitTable.find? (fun p => p.sym == s)

/-- `unit.to_string()`. -/
def unitToString (u : PhysUnit) : String := u.sym

/-- Rational addition in kernel-evaluable form (provably equal to `+` on `ℚ`). -/
def qadd (a b : ℚ) : ℚ := mkRat (a.num * b.den + b.num * a.den) (a.den * b.den)

/-- Rational subtraction in kernel-evaluable form (provably equal to `-` on `ℚ`). -/
def qsub (a b : ℚ) : ℚ := mkRat (a.num * b.den - b.num * a.den) (a.den * b.den)

/-- Rational multiplication in kernel-evaluable form (provably equal to `*` on `ℚ`). -/
def qmul (a b : ℚ) : ℚ := mkRat (a.num * b.num) (a.den * b.den)

/-- Rational division in kernel-evaluable form (provably equal to `/` on `ℚ`). -/
def qdiv (a b : ℚ) : ℚ := qmul a (Rat.divInt b.den b.num)

/-- ASCII lower-casing of one character (Python `str.lower` on the ASCII unit
strings this module handles). -/
def asciiLower (c : Char) : Char :=
  if 'A' ≤ c ∧ c ≤ 'Z' then Char.ofNat (c.toNat + 32) else c

/-- Python `str.lower` on an ASCII string. -/
def strLower (s : String) : String := ⟨s.data.map asciiLower⟩

/-- Python `str.strip`: drop leading and trailing blanks. -/
def strStrip (s : String) : String :=
  ⟨((s.data.dropWhile (fun c => c = ' ')).reverse.dropWhile (fun c => c = ' ')).reverse⟩

/-- A unit-bearing scalar, modelling a scalar `astropy.units.Quantity`. -/
structure Quantity where
  value : ℚ
  unit : PhysUnit
deriving DecidableEq, Repr

/-- `Quantity.to(target).value`: convert a quantity's value into a target unit,
failing when the dimensions disagree. -/
def quantityToValue (q : Quantity) (target : PhysUnit) : Option ℚ :=
  if q.unit.dim = target.dim then some (qdiv (qmul q.value q.unit.scale) target.scale)
  else none

/-- A FITS header card value. -/
inductive HVal
  | str (s : String)
  | num (q : ℚ)
  | boolv (b : Bool)
deriving DecidableEq, Repr

/-- A FITS header card: key, value, optional comment. -/
structure HCard where
  key : String
  val : HVal
  comment : Option String
deriving DecidableEq, Repr

/-- A FITS header: an ordered list of cards (models `astropy.io.fits.Header`). -/
abbrev Header := List HCard

/-- `header[key]`: the value of the first card whose key matches. -/
def hGet : Header → String → Option HVal
  | [], _ => none
  | c :: t, k => if c.key = k then some c.val else hGet t k

/-- `header.comments[key]`: the comment of the first card whose key matches. -/
def hGetComment : Header → String → Option String
  | [], _ => none
  | c :: t, k => if c.key = k then c.comment else hGetComment t k

/-- `header[key] = value` (or `header[key] = (value, comment)`): update the first
card with that key in place, keeping its comment when no new comment is given;
append a fresh card when the key is absent. -/
def hSet : Header → String → HVal → Option String → Header
  | [], k, v, c => [⟨k, v, c⟩]
  | card :: t, k, v, c =>
    if card.key = k then
      ⟨k, v, match c with | some s => some s | none => card.comment⟩ :: t
    else
      card :: hSet t k v c

/-- `header.extend(other, update=True)`: update existing keys in place, append
new ones, for every card of the incoming header in order. -/
def hExtendUpdate (h : Header) (incoming : Header) : Header :=
  incoming.foldl (fun acc c => hSet acc c.key c.val c.comment) h

/-- `dict[key] = value` on a plain ordered dictionary. -/
def dictSet : List (String × HVal) → String → HVal → List (String × HVal)
  | [], k, v => [(k, v)]
  | p :: t, k, v => if p.1 = k then (k, v) :: t else p :: dictSet t k v

/-- The metadata slot of a frame: either a structured FITS header or a plain
dict-like mapping (both expose `keys`). -/
inductive Meta
  | fitsHeader (h : Header)
  | plainDict (d : List (String × HVal))
deriving DecidableEq, Repr

/-- Coordinate mapping, modelling the external `astropy.wcs.WCS` capability by
its primary axis type descriptor (`wcs.wcs.ctype[0]`), the only part of it this
module inspects. -/
structure Wcs where
  ctype1 : String
deriving DecidableEq, Repr

/-- `wcs.to_header()`: export the coordinate mapping to header cards.  The keys
produced are reserved WCS keywords, disjoint from `bunit`. -/
def wcsToHeader (w : Wcs) : Header := [⟨"CTYPE1", .str w.ctype1, none⟩]

/-- `WCS(header)`: build a coordinate mapping from a header; never an error. -/
def wcsFromHeader (h : Header) : Wcs :=
  ⟨match hGet h "CTYPE1" with | some (.str s) => s | _ => ""⟩

/-- An `NDUncertainty` instance: its class name (`__class__.__name__`), its
payload array, and its optional unit. -/
structure NDUnc where
  cls : String
  arr : Option NArr
  unit : Option PhysUnit
deriving DecidableEq, Repr

/-- `StdDevUncertainty(array)`: the canonical standard-deviation representation. -/
def stdDev (a : Option NArr) : NDUnc := ⟨"StdDevUncertainty", a, none⟩

/-- The frame value object, modelling a `CCDData` instance's fields. -/
structure CCDData where
  data : NArr
  unit : Option PhysUnit
  mask : Option BArr
  uncertainty : Option NDUnc
  wcs : Option Wcs
  meta : Meta
  flags : Option NArr
deriving DecidableEq, Repr

/-- The errors the module raises, one constructor per distinct raise site kind. -/
inductive CcdErr
  | bothHeaderMeta
  | unitMissing
  | unitParse
  | metaType
  | uncShape
  | uncType
  | maskShape
  | uncClass
  | uncUnitMismatch
  | notImplemented
  | typeErrorKwd
  | indexError
  | attributeError
  | typeErrorArith
  | unitConversion
  | importError
  | broadcastError
  | ambiguousTruth
deriving DecidableEq, Repr

/-- A `unit=` argument: either a unit string or an already-built unit object. -/
inductive UnitArg
  | ustr (s : String)
  | uobj (u : PhysUnit)
deriving DecidableEq, Repr

/-- `u.Unit(value)` applied to a unit argument. -/
def UnitArg.toUnit : UnitArg → Option PhysUnit
  | .ustr s => parseUnit s
  | .uobj u => some u

/-- A `meta=` (or `header=`) argument: absent maps to `mnone`; `mother` is any
non-`None` value without a `keys` attribute. -/
inductive MetaArg
  | mnone
  | mheader (h : Header)
  | mdict (d : List (String × HVal))
  | mother
deriving DecidableEq, Repr

/-- An `uncertainty=` argument: `None`, an `NDUncertainty` instance, a raw
numeric array, or any other value. -/
inductive UncArg
  | unone
  | ndunc (u : NDUnc)
  | rawArr (a : NArr)
  | otherVal
deriving DecidableEq, Repr

/-- The `meta` property setter body: `None` becomes an empty dict, dict-like
values are stored, anything else is a `TypeError`. -/
def metaOfArg : MetaArg → Except CcdErr Meta
  | .mnone => .ok (.plainDict [])
  | .mheader h => .ok (.fitsHeader h)
  | .mdict d => .ok (.plainDict d)
  | .mother => .error .metaType

/-- The `meta` property setter on a frame. -/
def CCDData.setMeta (f : CCDData) (v : MetaArg) : Except CcdErr CCDData :=
  (metaOfArg v).map (fun m => { f with meta := m })

/-- The `unit` property setter: a non-`None` value is parsed with `u.Unit`
(raising on an unrecognized string), `None` is stored as-is. -/
def CCDData.setUnit (f : CCDData) (v : Option UnitArg) : Except CcdErr CCDData :=
  match v with
  | none => .ok { f with unit := none }
  | some a =>
    match a.toUnit with
    | some u => .ok { f with unit := some u }
    | none => .error .unitParse

/-- The `uncertainty` property setter: an `NDUncertainty` instance is stored
without any shape check; a raw numeric array must match `self.shape` and is
wrapped as `StdDevUncertainty` (with a log notice, not modelled); any other
value is a `TypeError`.  The `_parent_nddata` back-reference is bookkeeping
only and is not modelled. -/
def CCDData.setUncertainty (f : CCDData) (v : UncArg) : Except CcdErr CCDData :=
  match v with
  | .unone => .ok { f with uncertainty := none }
  | .ndunc u => .ok { f with uncertainty := some u }
  | .rawArr a =>
    if a.shape = f.data.shape then .ok { f with uncertainty := some (stdDev (some a)) }
    else .error .uncShape
  | .otherVal => .error .uncType

/-- `CCDData.__init__`: the `header`/`meta` keyword aliasing, the delegated
field assignments (meta, unit and uncertainty go through this module's own
property setters; the mask shape validation of the external base class is
modelled from the spec: a mask array must match `data.shape`), and the final
mandatory-unit check. -/
def mkCCDData (data : NArr) (unit : Option UnitArg) (mask : Option BArr)
    (uncertainty : UncArg) (wcs : Option Wcs)
    (metaArg : Option MetaArg) (headerArg : Option MetaArg) : Except CcdErr CCDData := do
  if metaArg.isSome ∧ headerArg.isSome then throw .bothHeaderMeta
  let effMeta := match metaArg with
    | some m => m
    | none => match headerArg with | some m => m | none => .mnone
  let meta ← metaOfArg effMeta
  let u ← match unit with
    | none => pure (none : Option PhysUnit)
    | some a =>
      match a.toUnit with
      | some pu => pure (some pu)
      | none => throw .unitParse
  match mask with
  | some m => if m.shape = data.shape then pure () else throw .maskShape
  | none => pure ()
  let base : CCDData :=
    { data := data, unit := u, mask := mask, uncertainty := none,
      wcs := wcs, meta := meta, flags := none }
  let f ← base.setUncertainty uncertainty
  if f.unit = none then throw .unitMissing
  return f

/-- The four numpy operators the arithmetic engine is invoked with. -/
inductive OpKind
  | addK
  | subK
  | mulK
  | divK
deriving DecidableEq, Repr

/-- The scalar function of an operator (rational division is total, a stand-in
for the floating-point behavior which never raises either). -/
def OpKind.qfun : OpKind → ℚ → ℚ → ℚ
  | .addK => qadd
  | .subK => qsub
  | .mulK => qmul
  | .divK => qdiv

/-- `operation.__name__ in ['add', 'subtract']`. -/
def OpKind.isAddSub : OpKind → Bool
  | .addK => true
  | .subK => true
  | _ => false

/-- `operation(array, scalar)`: the operator broadcast over an array and a scalar. -/
def NArr.mapScalar (op : OpKind) (a : NArr) (v : ℚ) : NArr :=
  ⟨a.shape, a.flat.map (fun x => op.qfun x v)⟩

/-- The `other` operand of a public arithmetic method: another frame, a
unit-bearing scalar, a plain number, or anything else. -/
inductive Operand
  | frame (g : CCDData)
  | quant (q : Quantity)
  | num (n : ℚ)
  | otherVal
deriving DecidableEq, Repr

/-- Product of two units (external unit algebra capability; dimensionless is
the identity of the dimension product). -/
def unitMul (a b : PhysUnit) : PhysUnit :=
  ⟨a.sym ++ " " ++ b.sym,
   if a.dim = "1" then b.dim else if b.dim = "1" then a.dim else a.dim ++ "*" ++ b.dim,
   qmul a.scale b.scale⟩

/-- Quotient of two units (external unit algebra capability). -/
def unitDiv (a b : PhysUnit) : PhysUnit :=
  ⟨a.sym ++ " / " ++ b.sym,
   if b.dim = "1" then a.dim else a.dim ++ "/" ++ b.dim,
   qdiv a.scale b.scale⟩

/-- `operation(1 * self.unit, other).unit`: the unit of applying the operator to
the quantity `1 × selfUnit` and the original `other` operand.  For addition and
subtraction the unit algebra requires compatible dimensions (a plain number
counts as dimensionless) and yields the left unit; for multiplication and
division it composes the units, a plain number leaving the unit unchanged. -/
def qOpUnit (op : OpKind) (selfUnit : PhysUnit) (other : Operand) : Except CcdErr PhysUnit :=
  match other with
  | .quant q =>
    if op.isAddSub then
      if selfUnit.dim = q.unit.dim then .ok selfUnit else .error .unitConversion
    else if op = .mulK then .ok (unitMul selfUnit q.unit)
    else .ok (unitDiv selfUnit q.unit)
  | .num _ =>
    if op.isAddSub then
      if selfUnit.dim = "1" then .ok selfUnit else .error .unitConversion
    else .ok selfUnit
  | _ => .error .typeErrorArith

/-- The dict-like payload of a frame's metadata, as re-passed to a result frame
constructor (`meta=new_meta`; deep copy is identity on values). -/
def Meta.toArg : Meta → MetaArg
  | .fitsHeader h => .mheader h
  | .plainDict d => .mdict d

/-- `CCDData._ccddata_arithmetic(other, operation, scale_uncertainty)`: the
common scalar-operand path of the arithmetic engine, translated clause by
clause from the source. -/
def CCDData.ccddataArithmetic (self : CCDData) (other : Operand) (op : OpKind)
    (scaleUncertainty : Bool) : Except CcdErr CCDData := do
  let otherValue ← match other with
    | .quant q =>
      if op.isAddSub ∧ self.unit ≠ some q.unit then
        match self.unit with
        | some su =>
          match quantityToValue q su with
          | some v => pure v
          | none => throw .unitConversion
        | none => throw .unitConversion
      else pure q.value
    | .num n => pure n
    | _ => throw .typeErrorArith
  let selfUnit ← match self.unit with
    | some su => pure su
    | none => throw .typeErrorArith
  let resultUnit ← qOpUnit op selfUnit other
  let resultData := NArr.mapScalar op self.data otherValue
  let resultUncertainty : UncArg ← match self.uncertainty with
    | some un =>
      match un.arr with
      | some a =>
        if scaleUncertainty then pure (UncArg.ndunc (stdDev (some (NArr.mapScalar op a otherValue))))
        else pure (UncArg.ndunc (stdDev (some a)))
      | none =>
        if scaleUncertainty then throw .typeErrorArith
        else pure (UncArg.ndunc (stdDev none))
    | none => pure UncArg.unone
  mkCCDData resultData (some (.uobj resultUnit)) self.mask resultUncertainty self.wcs
    (some self.meta.toArg) none

/-- Or-combination of two optional masks, as the external array arithmetic does. -/
def combineMask : Option BArr → Option BArr → Option BArr
  | none, none => none
  | some m, none => some m
  | none, some m => some m
  | some m1, some m2 => some ⟨m1.shape, List.zipWith or m1.flat m2.flat⟩

/-- Modelled from the spec: the generic n-dimensional array arithmetic the
frame-by-frame path delegates to (`super().add` and friends on the external
`NDDataArray` base class, astropy < 1.2: no `compare_wcs` keyword).  Modelled
for equal-shape operands: fails on a shape mismatch, as broadcasting does for
incompatible shapes, and on incompatible units for addition and subtraction
(converting the right operand's data into the left operand's unit otherwise);
or-combines the masks; keeps the left operand's metadata; uncertainty
propagation detail of the collaborator is not modelled (result uncertainty
absent); the result's coordinate mapping is the left operand's (both operands
have had theirs detached by the caller). -/
def ndArith (op : OpKind) (a b : CCDData) : Except CcdErr CCDData := do
  if a.data.shape ≠ b.data.shape then throw .broadcastError
  let (ua, ub) ← match a.unit, b.unit with
    | some x, some y => pure (x, y)
    | _, _ => throw .typeErrorArith
  let (resultUnit, bFactor) ←
    if op.isAddSub then
      if ua.dim = ub.dim then pure (ua, qdiv ub.scale ua.scale)
      else throw .unitConversion
    else if op = .mulK then pure (unitMul ua ub, 1)
    else pure (unitDiv ua ub, 1)
  let resultFlat := List.zipWith (fun x y => op.qfun x (qmul y bFactor)) a.data.flat b.data.flat
  return { data := ⟨a.data.shape, resultFlat⟩, unit := some resultUnit,
           mask := combineMask a.mask b.mask, uncertainty := none,
           wcs := a.wcs, meta := a.meta, flags := none }

/-- The frame-by-frame body shared verbatim by `add`, `subtract`, `multiply`
and `divide`: detach both operands' coordinate mappings, delegate, attach the
reconciled mapping to the result, restore the operands.  Returns the result
(or the propagated error) together with the two operands' post-call states; on
the delegate's error path control leaves before the restore, so the operands
are returned with their mappings still detached.  For any other policy value
the `hasattr(self, '_arithmetics_wcs')` capability probe fails on the
collaborator this module targets and an `ImportError` is raised. -/
def CCDData.ffArith (op : OpKind) (self g : CCDData) (compareWcs : Option String) :
    Except CcdErr CCDData × CCDData × CCDData :=
  if compareWcs = none ∨ compareWcs = some "first_found" then
    let tmp1 := self.wcs
    let tmp2 := g.wcs
    let self1 := { self with wcs := (none : Option Wcs) }
    let g1 := { g with wcs := (none : Option Wcs) }
    let resultWcs : Option Wcs :=
      if compareWcs = none then none
      else if tmp1.isSome then tmp1 else tmp2
    match ndArith op self1 g1 with
    | .error e => (.error e, self1, g1)
    | .ok r => (.ok { r with wcs := resultWcs }, { self1 with wcs := tmp1 }, { g1 with wcs := tmp2 })
  else
    (.error .importError, self, g)

deriving instance DecidableEq for Except

/-- The observable outcome of one public arithmetic call: the returned frame or
error, plus the post-call state of the receiver and of the `other` operand. -/
structure ArithOutcome where
  result : Except CcdErr CCDData
  selfAfter : CCDData
  otherAfter : Operand
deriving DecidableEq, Repr

/-- `CCDData.add(other, compare_wcs)`. -/
def CCDData.add (self : CCDData) (other : Operand) (compareWcs : Option String) : ArithOutcome :=
  match other with
  | .frame g =>
    let t := CCDData.ffArith .addK self g compareWcs
    ⟨t.1, t.2.1, .frame t.2.2⟩
  | o => ⟨self.ccddataArithmetic o .addK false, self, o⟩

/-- `CCDData.subtract(other, compare_wcs)`. -/
def CCDData.subtract (self : CCDData) (other : Operand) (compareWcs : Option String) : ArithOutcome :=
  match other with
  | .frame g =>
    let t := CCDData.ffArith .subK self g compareWcs
    ⟨t.1, t.2.1, .frame t.2.2⟩
  | o => ⟨self.ccddataArithmetic o .subK false, self, o⟩

/-- `CCDData.multiply(other, compare_wcs)`. -/
def CCDData.multiply (self : CCDData) (other : Operand) (compareWcs : Option String) : ArithOutcome :=
  match other with
  | .frame g =>
    let t := CCDData.ffArith .mulK self g compareWcs
    ⟨t.1, t.2.1, .frame t.2.2⟩
  | o => ⟨self.ccddataArithmetic o .mulK true, self, o⟩

/-- `CCDData.divide(other, compare_wcs)`. -/
def CCDData.divide (self : CCDData) (other : Operand) (compareWcs : Option String) : ArithOutcome :=
  match other with
  | .frame g =>
    let t := CCDData.ffArith .divK self g compareWcs
    ⟨t.1, t.2.1, .frame t.2.2⟩
  | o => ⟨self.ccddataArithmetic o .divK true, self, o⟩

/-- Modelled from the spec: the fixed table of long autolog keys and their
short aliases (`_short_names`, defined in the package's `core` module, which is
not part of this file); a fixed set of over-length keywords, each mapped to a
key of at most eight characters, keys and aliases pairwise distinct. -/
def shortNames : List (String × String) :=
  [("background_deviation_box", "bakdvbox"),
   ("background_deviation_filter", "bakdvfil"),
   ("cosmicray_median", "crmedian"),
   ("create_deviation", "creatvar"),
   ("flat_correct", "flatcor"),
   ("gain_correct", "gaincor"),
   ("subtract_bias", "subbias"),
   ("subtract_dark", "subdark"),
   ("subtract_overscan", "suboscan"),
   ("transform_image", "tranform"),
   ("trim_image", "trimim")]

/-- `key in _short_names` followed by the lookup `_short_names[key]`. -/
def findShort (key : String) : Option String :=
  (shortNames.find? (fun p => p.1 == key)).map (fun p => p.2)

/-- The body of `_insert_in_metadata_fits_safe` on a structured FITS header:
a long autolog key is stored as two records, `header[key] = (short, note)` and
`header[short] = value`; any other key is inserted directly. -/
def insertFitsSafeHeader (h : Header) (key : String) (v : HVal) : Header :=
  match findShort key with
  | some short =>
    hSet (hSet h key (.str short) (some "Shortened name for ccdproc command")) short v none
  | none => hSet h key v none

/-- `CCDData._insert_in_metadata_fits_safe(key, value)`: the two-record
workaround applies only when the metadata is a FITS header; on a plain dict
the pair is always inserted directly. -/
def CCDData.insertInMetadataFitsSafe (f : CCDData) (key : String) (v : HVal) : CCDData :=
  match f.meta with
  | .fitsHeader h => { f with meta := .fitsHeader (insertFitsSafeHeader h key v) }
  | .plainDict d => { f with meta := .plainDict (dictSet d key v) }

/-- One record of the structured file: extension name, optional array payload,
header (models an `astropy.io.fits` HDU). -/
structure HDU where
  name : String
  hdata : Option NArr
  hheader : Header
deriving DecidableEq, Repr

/-- Truthiness of an optional extension-name argument (`if hdu_mask and ...`):
`None` and the empty string are falsy. -/
def truthyName : Option String → Bool
  | none => false
  | some s => s ≠ ""

/-- `name in hdulist`: whether some record carries that extension name
(`None in hdulist` is false). -/
def memberName (hdus : List HDU) (n : Option String) : Bool :=
  match n with
  | none => false
  | some s => hdus.any (fun h => h.name == s)

/-- `hdulist[name]`: the first record with that extension name. -/
def findByName (hdus : List HDU) (s : String) : Option HDU :=
  hdus.find? (fun h => h.name == s)

/-- `CCDData.to_hdu` up to and including the mask and uncertainty records (the
flags check, which follows them in the source, is appended by `toHdu`). -/
def CCDData.toHduPre (f : CCDData) (hduMask hduUncertainty : Option String) :
    Except CcdErr (List HDU) := do
  let header0 : Header ←
    match f.meta with
    | .fitsHeader h => pure h
    | .plainDict d =>
      pure (d.foldl (fun acc kv => insertFitsSafeHeader acc kv.1 kv.2) ([] : Header))
  let header1 : Header ←
    if f.unit ≠ some dimensionlessU then
      match f.unit with
      | some u => pure (hSet header0 "bunit" (.str (unitToString u)) none)
      | none => throw .attributeError
    else pure header0
  let header2 : Header :=
    match f.wcs with
    | some w => hExtendUpdate header1 (wcsToHeader w)
    | none => header1
  let maskPart : List HDU :=
    match f.mask with
    | some m =>
      if truthyName hduMask then [⟨(hduMask.getD ""), some (uint8OfBArr m), []⟩] else []
    | none => []
  let uncPart : List HDU ←
    match f.uncertainty with
    | some un =>
      if truthyName hduUncertainty then do
        if un.cls ≠ "StdDevUncertainty" then throw .uncClass
        match un.unit with
        | some x => if f.unit ≠ some x then throw .uncUnitMismatch else pure ()
        | none => pure ()
        pure [⟨(hduUncertainty.getD ""), un.arr, []⟩]
      else pure []
    | none => pure []
  return ⟨"PRIMARY", some f.data, header2⟩ :: (maskPart ++ uncPart)

/-- Python truthiness of a numpy array (`bool(arr)`): an empty array is
falsy, a single-element array is truthy exactly when its element is nonzero,
and an array of more than one element raises the ambiguous-truth-value
error. -/
def npTruthy (a : NArr) : Except CcdErr Bool :=
  match a.flat with
  | [] => .ok false
  | [x] => .ok (if x = 0 then false else true)
  | _ => .error .ambiguousTruth

/-- `CCDData.to_hdu(hdu_mask, hdu_uncertainty, hdu_flags)`: builds the record
list and then evaluates `if hdu_flags and self.flags:` — Python `and`
short-circuits on a falsy flags name, `None` flags are falsy, and an array's
truthiness follows `npTruthy` (so a zero single-element flags array does not
raise, and a multi-element flags array raises the ambiguous-truth-value error
rather than `NotImplementedError`); a truthy flags value raises
`NotImplementedError`.  The check sits after the mask and uncertainty records
in the source.  The mask branch's array check (`hasattr(self.mask, 'shape')`)
always passes here because the model types the mask as a boolean array. -/
def CCDData.toHdu (f : CCDData) (hduMask hduUncertainty hduFlags : Option String) :
    Except CcdErr (List HDU) := do
  let hdus ← f.toHduPre hduMask hduUncertainty
  if truthyName hduFlags then
    match f.flags with
    | some fa => do
      let b ← npTruthy fa
      if b then throw .notImplemented
    | none => pure ()
  return hdus

/-- `fits_ccddata_writer(ccd_data, filename, ...)`: serialize and hand the
record list to the external container (file I/O is the identity on records). -/
def fitsCcddataWriter (f : CCDData) (hduMask hduUncertainty hduFlags : Option String) :
    Except CcdErr (List HDU) :=
  f.toHdu hduMask hduUncertainty hduFlags

/-- The `bunit` case patch of the reader: a recorded unit string equal to
`adu` up to letter case (and surrounding blanks) is lowercased. -/
def normalizeBunit (s : String) : String :=
  if strLower (strStrip s) = "adu" then strLower s else s

/-- Python `a or b` on the reader's unit argument and the file's unit string:
a non-`None`, non-empty left operand wins. -/
def pyOr (a b : Option String) : Option String :=
  match a with
  | some s => if s ≠ "" then some s else b
  | none => b

/-- The reader's unit resolution (`use_unit = unit or fits_unit_string`) on the
explicit argument and the raw recorded unit string, together with whether the
override notice is logged (`unit is not None and fits_unit_string`). -/
def readerResolveUnit (unitArg : Option String) (bunitRaw : Option String) :
    Option String × Bool :=
  let fitsUnitString := bunitRaw.map normalizeBunit
  (pyOr unitArg fitsUnitString,
   unitArg.isSome && (match fitsUnitString with | some s => s ≠ "" | none => false))

/-- `fits_ccddata_reader` up to and including the mask record (the flags check
follows it in the source): the unsupported-open-keyword rejection, the header
of the selected record, the uncertainty record, the mask record. -/
def readerPre (hdus : List HDU) (hduIdx : Nat)
    (hduUncertainty hduMask : Option String) (kwd : List String) :
    Except CcdErr (HDU × UncArg × Option BArr) := do
  if kwd.contains "do_not_scale_image_data" ∨ kwd.contains "scale_back" then
    throw .typeErrorKwd
  let hdu0 ← match hdus[hduIdx]? with
    | some h => pure h
    | none => throw .indexError
  let uncertainty : UncArg ←
    if memberName hdus hduUncertainty then
      match findByName hdus (hduUncertainty.getD "") with
      | some h => pure (UncArg.ndunc (stdDev h.hdata))
      | none => throw .indexError
    else pure UncArg.unone
  let mask : Option BArr ←
    if memberName hdus hduMask then
      match findByName hdus (hduMask.getD "") with
      | some h =>
        match h.hdata with
        | some a => pure (some (boolOfNArr a))
        | none => throw .attributeError
      | none => throw .indexError
    else pure (none : Option BArr)
  return (hdu0, uncertainty, mask)

/-- `fits_ccddata_reader` after the flags check: the empty-primary scan
(modelled from the spec: the selected record's header is merged onto the
original), the `bunit` resolution with the `adu` case patch, the coordinate
mapping probe, and the final frame construction. -/
def readerPost (hdus : List HDU) (hduIdx : Nat) (unitArg : Option String)
    (hdu0 : HDU) (uncertainty : UncArg) (mask : Option BArr) :
    Except CcdErr CCDData := do
  let (hduIdx2, hdr2) ←
    if hduIdx = 0 ∧ hdu0.hdata = none then
      match hdus.findIdx? (fun h => h.hdata.isSome) with
      | some i =>
        match hdus[i]? with
        | some hi => pure (i, hExtendUpdate hdu0.hheader hi.hheader)
        | none => throw .indexError
      | none => pure (hduIdx, hdu0.hheader)
    else pure (hduIdx, hdu0.hheader)
  let bunitRaw : Option String ←
    match hGet hdr2 "bunit" with
    | some (.str s) => pure (some s)
    | some _ => throw .attributeError
    | none => pure (none : Option String)
  let useUnit := (readerResolveUnit unitArg bunitRaw).1
  let wcs0 := wcsFromHeader hdr2
  let wcs : Option Wcs := if wcs0.ctype1 ≠ "" then some wcs0 else none
  let dataHdu ← match hdus[hduIdx2]? with
    | some h => pure h
    | none => throw .indexError
  let ddata ← match dataHdu.hdata with
    | some d => pure d
    | none => throw .attributeError
  mkCCDData ddata (useUnit.map UnitArg.ustr) mask uncertainty wcs
    (some (.mheader hdr2)) none

/-- `fits_ccddata_reader(filename, hdu, unit, hdu_uncertainty, hdu_mask,
hdu_flags, **kwd)`: the full reader over an opened record list. -/
def fitsCcddataReader (hdus : List HDU) (hduIdx : Nat) (unitArg : Option String)
    (hduUncertainty hduMask hduFlags : Option String) (kwd : List String) :
    Except CcdErr CCDData := do
  let (hdu0, uncertainty, mask) ← readerPre hdus hduIdx hduUncertainty hduMask kwd
  if memberName hdus hduFlags then throw .notImplemented
  readerPost hdus hduIdx unitArg hdu0 uncertainty mask

/-- Write a frame with the default record names and read it back with the
default arguments: `fits_ccddata_reader(fits_ccddata_writer(f))`. -/
def writeReadDefault (f : CCDData) : Except CcdErr CCDData := do
  let hdus ← fitsCcddataWriter f (some "MASK") (some "UNCERT") none
  fitsCcddataReader hdus 0 none (some "UNCERT") (some "MASK") none []

/-- A minimal well-formed frame in `adu`, reused by concrete instantiations. -/
def exBase : CCDData :=
  { data := ⟨[1], [1]⟩, unit := some aduU, mask := none, uncertainty := none,
    wcs := none, meta := .fitsHeader [], flags := none }

/-- A frame with mask, standard-deviation uncertainty, coordinate mapping and
metadata, used to exercise the round trip. -/
def exFull : CCDData :=
  { data := ⟨[2], [5, 7]⟩, unit := some aduU,
    mask := some ⟨[2], [true, false]⟩,
    uncertainty := some (stdDev (some ⟨[2], [1, 2]⟩)),
    wcs := some ⟨"RA---TAN"⟩,
    meta := .fitsHeader [⟨"EXPTIME", .num 30, none⟩],
    flags := none }

/-- A dimensionless frame with mask and standard-deviation uncertainty. -/
def exDimless : CCDData :=
  { data := ⟨[1], [5]⟩, unit := some dimensionlessU,
    mask := some ⟨[1], [false]⟩,
    uncertainty := some (stdDev (some ⟨[1], [1]⟩)),
    wcs := none, meta := .fitsHeader [], flags := none }

/-- A two-pixel frame carrying a coordinate mapping. -/
def exWcsA : CCDData := { exBase with data := ⟨[2], [1, 2]⟩, wcs := some ⟨"RA---TAN"⟩ }

/-- A three-pixel frame (shape incompatible with `exWcsA`). -/
def exShape3 : CCDData := { exBase with data := ⟨[3], [1, 2, 3]⟩ }

/-- A two-pixel frame (shape compatible with `exWcsA`). -/
def exShape2 : CCDData := { exBase with data := ⟨[2], [3, 4]⟩ }

/-- The spec's metre-valued example frame with data `[1, 2, 3]`. -/
def exMeters : CCDData := { exBase with data := ⟨[3], [1, 2, 3]⟩, unit := some meterU }

/-- The spec's `adu` example frame with data `[2, 4]` and uncertainty `[1, 1]`. -/
def exUncFrame : CCDData :=
  { exBase with data := ⟨[2], [2, 4]⟩, uncertainty := some (stdDev (some ⟨[2], [1, 1]⟩)) }

/-- A standard-deviation uncertainty whose array shape `[3]` matches no
two-pixel frame. -/
def exUnc3 : NDUnc := stdDev (some ⟨[3], [1, 2, 3]⟩)

theorem qadd_eq (a b : ℚ) : qadd a b = a + b := (Rat.add_def' a b).symm

theorem qsub_eq (a b : ℚ) : qsub a b = a - b := (Rat.sub_def' a b).symm

theorem qmul_eq (a b : ℚ) : qmul a b = a * b := by
  unfold qmul
  rw [Rat.mul_def, Rat.normalize_eq_mkRat]

theorem qdiv_eq (a b : ℚ) : qdiv a b = a / b := by
  unfold qdiv
  rw [qmul_eq, Rat.div_def, Rat.inv_def]

theorem hGet_hSet_self (h : Header) (k : String) (v : HVal) (c : Option String) :
    hGet (hSet h k v c) k = some v := by
  induction h with
  | nil => simp [hSet, hGet]
  | cons card t ih =>
    by_cases hk : card.key = k
    · simp [hSet, hk, hGet]
    · simp [hSet, hk, hGet, ih]

theorem hGet_hSet_ne (h : Header) (k k' : String) (v : HVal) (c : Option String)
    (hne : k' ≠ k) : hGet (hSet h k v c) k' = hGet h k' := by
  induction h with
  | nil => simp [hSet, hGet, Ne.symm hne]
  | cons card t ih =>
    by_cases hk : card.key = k
    · simp [hSet, hk, hGet, Ne.symm hne, hne]
    · by_cases hk' : card.key = k'
      · simp [hSet, hk, hGet, hk', hne]
      · simp [hSet, hk, hGet, hk', ih]

theorem hGetComment_hSet_self (h : Header) (k : String) (v : HVal) (c : String) :
    hGetComment (hSet h k v (some c)) k = some c := by
  induction h with
  | nil => simp [hSet, hGetComment]
  | cons card t ih =>
    by_cases hk : card.key = k
    · simp [hSet, hk, hGetComment]
    · simp [hSet, hk, hGetComment, ih]

theorem hGetComment_hSet_ne (h : Header) (k k' : String) (v : HVal) (c : Option String)
    (hne : k' ≠ k) : hGetComment (hSet h k v c) k' = hGetComment h k' := by
  induction h with
  | nil => simp [hSet, hGetComment, Ne.symm hne]
  | cons card t ih =>
    by_cases hk : card.key = k
    · simp [hSet, hk, hGetComment, Ne.symm hne, hne]
    · by_cases hk' : card.key = k'
      · simp [hSet, hk, hGetComment, hk', hne]
      · simp [hSet, hk, hGetComment, hk', ih]

theorem boolOfNArr_uint8 (m : BArr) : boolOfNArr (uint8OfBArr m) = m := by
  cases m with
  | mk shape flat =>
    simp only [uint8OfBArr, boolOfNArr, List.map_map, BArr.mk.injEq, true_and]
    induction flat with
    | nil => rfl
    | cons b t ih => cases b <;> simp_all [Function.comp]

theorem parseUnit_mem (s : String) (u : PhysUnit) (h : parseUnit s = some u) :
    u ∈ unitTable ∧ u.sym = s := by
  unfold parseUnit at h
  have hb := @List.find?_some PhysUnit (fun p => p.sym == s) u unitTable h
  exact ⟨List.mem_of_find?_eq_some h, eq_of_beq (by simpa using hb)⟩

theorem normalizeBunit_of_parse (s : String) (u : PhysUnit) (h : parseUnit s = some u) :
    normalizeBunit s = s := by
  obtain ⟨hm, hs⟩ := parseUnit_mem s u h
  subst hs
  have : ∀ p ∈ unitTable, normalizeBunit p.sym = p.sym := by decide
  exact this u hm

theorem parseUnit_sym_ne_empty (s : String) (u : PhysUnit) (h : parseUnit s = some u)
    (hnd : u ≠ dimensionlessU) : s ≠ "" := by
  obtain ⟨hm, hs⟩ := parseUnit_mem s u h
  subst hs
  have : ∀ p ∈ unitTable, p ≠ dimensionlessU → p.sym ≠ "" := by decide
  exact this u hm hnd

theorem findShort_spec (k s : String) (h : findShort k = some s) :
    (k, s) ∈ shortNames ∧ k ≠ s := by
  unfold findShort at h
  cases hf : shortNames.find? (fun p => p.1 == k) with
  | none => rw [hf] at h; cases h
  | some p =>
    rw [hf] at h
    have hm := List.mem_of_find?_eq_some hf
    have hb := @List.find?_some (String × String) (fun q => q.1 == k) p shortNames hf
    have hp : p.1 = k := eq_of_beq (by simpa using hb)
    have hps : p.2 = s := by cases h; rfl
    have hd : ∀ q ∈ shortNames, q.1 ≠ q.2 := by decide
    have : p = (k, s) := by
      cases p
      simp only at hp hps
      rw [hp, hps]
    rw [this] at hm
    refine ⟨hm, ?_⟩
    have := hd (k, s) hm
    simpa using this

/-- Claim C9: assigning `None` to a frame's metadata accessor never raises and
stores an empty mapping; dict-like values (a FITS header or a plain dict) are
stored as given; only a non-`None` value lacking a mapping interface is
rejected with a type error. -/
theorem metaSetter_none_never_raises :
    ∀ f : CCDData,
      (CCDData.setMeta f .mnone = .ok { f with meta := .plainDict [] }) ∧
      (CCDData.setMeta f .mother = .error .metaType) ∧
      (∀ h : Header, CCDData.setMeta f (.mheader h) = .ok { f with meta := .fitsHeader h }) ∧
      (∀ d, CCDData.setMeta f (.mdict d) = .ok { f with meta := .plainDict d }) :=
  fun _ => ⟨rfl, rfl, fun _ => rfl, fun _ => rfl⟩

/-- Claim C10: the shape check on uncertainty assignment is applied only to raw
numeric arrays: any `NDUncertainty` instance is accepted without comparing its
array shape to the data shape, a raw array whose shape disagrees is rejected,
and consequently a frame can end up holding an uncertainty whose shape differs
from its data (witnessed at `exBase`, shape `[1]`, holding `exUnc3`, shape
`[3]`). -/
theorem uncertaintyShapeCheck_raw_only :
    (∀ (f : CCDData) (u : NDUnc),
      CCDData.setUncertainty f (.ndunc u) = .ok { f with uncertainty := some u }) ∧
    (∀ (f : CCDData) (a : NArr), a.shape ≠ f.data.shape →
      CCDData.setUncertainty f (.rawArr a) = .error .uncShape) ∧
    (CCDData.setUncertainty exBase (.ndunc exUnc3) = .ok { exBase with uncertainty := some exUnc3 } ∧
      exUnc3.arr.map NArr.shape = some [3] ∧ exBase.data.shape = [1]) := by
  refine ⟨fun f u => rfl, fun f a ha => ?_, by decide⟩
  simp [CCDData.setUncertainty, ha]

/-- Witness for claim C10, instantiating the raw-array branch at a concrete
mismatched shape. -/
theorem uncertaintyShapeCheck_raw_only_witness :
    CCDData.setUncertainty exBase (.rawArr ⟨[3], [1, 2, 3]⟩) = .error .uncShape :=
  uncertaintyShapeCheck_raw_only.2.1 exBase ⟨[3], [1, 2, 3]⟩ (by decide)

/-- Claim C4, counterexample: assigning `None` to the unit accessor of a
constructed frame succeeds and leaves the unit unset, so mutation after
construction can unset the unit. -/
theorem unitSetter_none_unsets_cex :
    CCDData.setUnit exBase none = .ok { exBase with unit := none } ∧
      ({ exBase with unit := none } : CCDData).unit = none := by
  exact ⟨rfl, rfl⟩

/-- Claim C4 as amended: construction with a valid `(data, unit)` succeeds and
stores the parsed unit; construction without a unit fails; assigning a
parseable non-`None` value to the unit accessor keeps the unit set — but
assigning `None` to the unit accessor succeeds and leaves the unit unset (the
mandatory-unit invariant is enforced at construction only). -/
theorem unit_construction_and_setter_amended :
    (∀ (d : NArr) (a : UnitArg) (u : PhysUnit), a.toUnit = some u →
      mkCCDData d (some a) none .unone none none none =
        .ok { data := d, unit := some u, mask := none, uncertainty := none,
              wcs := none, meta := .plainDict [], flags := none }) ∧
    (∀ d : NArr, mkCCDData d none none .unone none none none = .error .unitMissing) ∧
    (∀ (f : CCDData) (a : UnitArg) (u : PhysUnit), a.toUnit = some u →
      CCDData.setUnit f (some a) = .ok { f with unit := some u }) ∧
    (∀ f : CCDData, CCDData.setUnit f none = .ok { f with unit := none }) := by
  refine ⟨fun d a u ha => ?_, fun d => rfl, fun f a u ha => ?_, fun f => rfl⟩
  · simp [mkCCDData, ha, metaOfArg, CCDData.setUncertainty, bind, Except.bind, pure, Except.pure]
  · simp [CCDData.setUnit, ha]

/-- Witness for claim C4 (amended), instantiating construction and the setter
at the `adu` unit string. -/
theorem unit_construction_and_setter_amended_witness :
    (mkCCDData ⟨[1], [1]⟩ (some (.ustr "adu")) none .unone none none none =
      .ok { data := ⟨[1], [1]⟩, unit := some aduU, mask := none, uncertainty := none,
            wcs := none, meta := .plainDict [], flags := none }) ∧
    (CCDData.setUnit exBase (some (.ustr "m")) = .ok { exBase with unit := some meterU }) :=
  ⟨unit_construction_and_setter_amended.1 ⟨[1], [1]⟩ (.ustr "adu") aduU (by decide),
   unit_construction_and_setter_amended.2.2.1 exBase (.ustr "m") meterU (by decide)⟩

/-- Claim C3, counterexample: requesting a flags record on write succeeds when
the frame carries no flags — `to_hdu` returns the record list instead of
raising — so a flags request does not always fail. -/
theorem flags_requested_can_succeed_cex :
    CCDData.toHdu exBase (some "MASK") (some "UNCERT") (some "FLAGS") =
      .ok [⟨"PRIMARY", some ⟨[1], [1]⟩, [⟨"bunit", .str "adu", none⟩]⟩] := by decide

/-- Claim C3 as amended: a flags request is inert unless the flags value is
actually truthy.  On write, requesting a flags name on a frame whose flags
are absent, or whose flags array is falsy (empty, or a single zero element),
yields exactly the same outcome as not requesting flags; on a frame whose
flags array is truthy (a nonzero single element) and whose other records
serialize, it raises the unsupported-feature error; on a frame with a
multi-element flags array the truthiness test itself raises the
ambiguous-truth-value error instead.  On read, requesting a flags name that
names no record of the file yields exactly the same outcome as not requesting
flags, while a flags name naming an existing record (in a file the reader
otherwise accepts) raises the unsupported-feature error. -/
theorem flags_error_iff_flags_present_amended :
    (∀ (f : CCDData) (m u fl : Option String), f.flags = none →
      f.toHdu m u fl = f.toHdu m u none) ∧
    (∀ (f : CCDData) (m u fl : Option String) (fa : NArr),
      f.flags = some fa → npTruthy fa = .ok false →
      f.toHdu m u fl = f.toHdu m u none) ∧
    (∀ (f : CCDData) (m u fl : Option String) (fa : NArr) (hdus : List HDU),
      truthyName fl = true → f.flags = some fa → npTruthy fa = .ok true →
      f.toHdu m u none = .ok hdus → f.toHdu m u fl = .error .notImplemented) ∧
    (∀ (f : CCDData) (m u fl : Option String) (fa : NArr) (hdus : List HDU),
      truthyName fl = true → f.flags = some fa → 2 ≤ fa.flat.length →
      f.toHdu m u none = .ok hdus → f.toHdu m u fl = .error .ambiguousTruth) ∧
    (∀ (hdus : List HDU) (idx : Nat) (ua hu hm fl : Option String) (kwd : List String),
      memberName hdus fl = false →
      fitsCcddataReader hdus idx ua hu hm fl kwd = fitsCcddataReader hdus idx ua hu hm none kwd) ∧
    (∀ (hdus : List HDU) (idx : Nat) (ua hu hm fl : Option String) (kwd : List String)
      (r : CCDData),
      memberName hdus fl = true →
      fitsCcddataReader hdus idx ua hu hm none kwd = .ok r →
      fitsCcddataReader hdus idx ua hu hm fl kwd = .error .notImplemented) := by
  refine ⟨?_, ?_, ?_, ?_, ?_, ?_⟩
  · intro f m u fl hfl
    unfold CCDData.toHdu
    cases hpre : f.toHduPre m u with
    | error e => simp [bind, Except.bind]
    | ok x => simp [bind, Except.bind, hfl, truthyName]
  · intro f m u fl fa hfa htru
    unfold CCDData.toHdu
    cases hpre : f.toHduPre m u with
    | error e => simp [bind, Except.bind]
    | ok x => simp [bind, Except.bind, hfa, htru, truthyName]
  · intro f m u fl fa hdus htr hfa htru h
    unfold CCDData.toHdu at h ⊢
    cases hpre : f.toHduPre m u with
    | error e =>
      simp only [bind, Except.bind] at h
      rw [hpre] at h
      simp at h
    | ok x =>
      simp only [bind, Except.bind] at h ⊢
      simp [htr, hfa, htru, throw, throwThe, MonadExceptOf.throw, bind, Except.bind]
  · intro f m u fl fa hdus htr hfa hlen h
    have htru : npTruthy fa = .error .ambiguousTruth := by
      unfold npTruthy
      rcases hfl : fa.flat with _ | ⟨x, _ | ⟨y, t2⟩⟩ <;> rw [hfl] at hlen <;> simp_all
    unfold CCDData.toHdu at h ⊢
    cases hpre : f.toHduPre m u with
    | error e =>
      simp only [bind, Except.bind] at h
      rw [hpre] at h
      simp at h
    | ok x =>
      simp only [bind, Except.bind] at h ⊢
      simp [htr, hfa, htru, bind, Except.bind]
  · intro hdus idx ua hu hm fl kwd hmem
    have hnone : memberName hdus none = false := rfl
    unfold fitsCcddataReader
    cases hpre : readerPre hdus idx hu hm kwd with
    | error e => simp [bind, Except.bind]
    | ok x =>
      obtain ⟨a, b, c⟩ := x
      simp [bind, Except.bind, hmem, hnone]
  · intro hdus idx ua hu hm fl kwd r hmem h
    have hnone : memberName hdus none = false := rfl
    unfold fitsCcddataReader at h ⊢
    cases hpre : readerPre hdus idx hu hm kwd with
    | error e =>
      simp only [bind, Except.bind] at h
      rw [hpre] at h
      simp at h
    | ok x =>
      obtain ⟨a, b, c⟩ := x
      simp only [bind, Except.bind] at h ⊢
      simp [hmem, throw, throwThe, MonadExceptOf.throw, bind, Except.bind]

/-- Witness for claim C3 (amended): a frame whose flags array is the truthy
single element `[1]` raises the unsupported-feature error on write when a
flags name is requested; a frame whose flags array is the falsy single
element `[0]` serializes exactly as if flags had not been requested; a frame
with the two-element flags array `[0, 1]` raises the ambiguous-truth-value
error; and a file containing a `FLAGS` record raises the unsupported-feature
error on read when that name is requested. -/
theorem flags_error_iff_flags_present_amended_witness :
    (CCDData.toHdu { exBase with flags := some ⟨[1], [1]⟩ } none (some "UNCERT") (some "FLAGS") =
      .error .notImplemented) ∧
    (CCDData.toHdu { exBase with flags := some ⟨[1], [0]⟩ } none (some "UNCERT") (some "FLAGS") =
      CCDData.toHdu { exBase with flags := some ⟨[1], [0]⟩ } none (some "UNCERT") none) ∧
    (CCDData.toHdu { exBase with flags := some ⟨[2], [0, 1]⟩ } none (some "UNCERT") (some "FLAGS") =
      .error .ambiguousTruth) ∧
    (fitsCcddataReader
        [⟨"PRIMARY", some ⟨[1], [1]⟩, [⟨"bunit", .str "adu", none⟩]⟩,
         ⟨"FLAGS", some ⟨[1], [1]⟩, []⟩]
        0 none (some "UNCERT") (some "MASK") (some "FLAGS") [] = .error .notImplemented) :=
  ⟨flags_error_iff_flags_present_amended.2.2.1
      { exBase with flags := some ⟨[1], [1]⟩ } none (some "UNCERT") (some "FLAGS")
      ⟨[1], [1]⟩
      [⟨"PRIMARY", some ⟨[1], [1]⟩, [⟨"bunit", .str "adu", none⟩]⟩]
      (by decide) (by decide) (by decide) (by decide),
   flags_error_iff_flags_present_amended.2.1
      { exBase with flags := some ⟨[1], [0]⟩ } none (some "UNCERT") (some "FLAGS")
      ⟨[1], [0]⟩ (by decide) (by decide),
   flags_error_iff_flags_present_amended.2.2.2.1
      { exBase with flags := some ⟨[2], [0, 1]⟩ } none (some "UNCERT") (some "FLAGS")
      ⟨[2], [0, 1]⟩
      [⟨"PRIMARY", some ⟨[1], [1]⟩, [⟨"bunit", .str "adu", none⟩]⟩]
      (by decide) (by decide) (by decide) (by decide),
   flags_error_iff_flags_present_amended.2.2.2.2.2
      [⟨"PRIMARY", some ⟨[1], [1]⟩, [⟨"bunit", .str "adu", none⟩]⟩,
       ⟨"FLAGS", some ⟨[1], [1]⟩, []⟩]
      0 none (some "UNCERT") (some "MASK") (some "FLAGS") []
      { data := ⟨[1], [1]⟩, unit := some aduU, mask := none, uncertainty := none,
        wcs := none,
        meta := .fitsHeader [⟨"bunit", .str "adu", none⟩], flags := none }
      (by decide) (by decide)⟩

/-- Claim C7: inserting a long autolog key via the key-safety helper into a
FITS-header metadata store produces two records — the original key holds the
short alias, with the explanatory note as its comment, and the short alias
holds the value — so looking up the short alias returns the original value;
every other key is inserted directly as `(key, value)`.  (The alias table
itself lives in the package's `core` module and is modelled from the spec.) -/
theorem fits_safe_insert_two_records :
    (∀ (f : CCDData) (h : Header) (key short : String) (v : HVal),
      f.meta = .fitsHeader h → findShort key = some short →
      (f.insertInMetadataFitsSafe key v).meta = .fitsHeader (insertFitsSafeHeader h key v) ∧
      hGet (insertFitsSafeHeader h key v) short = some v ∧
      hGet (insertFitsSafeHeader h key v) key = some (.str short) ∧
      hGetComment (insertFitsSafeHeader h key v) key =
        some "Shortened name for ccdproc command") ∧
    (∀ (f : CCDData) (h : Header) (key : String) (v : HVal),
      f.meta = .fitsHeader h → findShort key = none →
      (f.insertInMetadataFitsSafe key v).meta = .fitsHeader (hSet h key v none) ∧
      hGet (hSet h key v none) key = some v) := by
  constructor
  · intro f h key short v hm hks
    obtain ⟨hmem, hne⟩ := findShort_spec key short hks
    refine ⟨by simp [CCDData.insertInMetadataFitsSafe, hm], ?_, ?_, ?_⟩
    · simp only [insertFitsSafeHeader, hks]
      exact hGet_hSet_self _ short v none
    · simp only [insertFitsSafeHeader, hks]
      rw [hGet_hSet_ne _ short key v none hne]
      exact hGet_hSet_self h key (.str short) _
    · simp only [insertFitsSafeHeader, hks]
      rw [hGetComment_hSet_ne _ short key v none hne]
      exact hGetComment_hSet_self h key (.str short) _
  · intro f h key v hm hks
    exact ⟨by simp [CCDData.insertInMetadataFitsSafe, hm, insertFitsSafeHeader, hks],
           hGet_hSet_self h key v none⟩

/-- Witness for claim C7, inserting the autolog key `subtract_bias` into an
empty FITS header store: the alias `subbias` returns the value, the original
key maps to the alias with the explanatory note. -/
theorem fits_safe_insert_two_records_witness :
    ((CCDData.insertInMetadataFitsSafe exBase "subtract_bias" (.str "done")).meta =
      .fitsHeader (insertFitsSafeHeader [] "subtract_bias" (.str "done")) ∧
     hGet (insertFitsSafeHeader [] "subtract_bias" (.str "done")) "subbias" =
      some (.str "done") ∧
     hGet (insertFitsSafeHeader [] "subtract_bias" (.str "done")) "subtract_bias" =
      some (.str "subbias") ∧
     hGetComment (insertFitsSafeHeader [] "subtract_bias" (.str "done")) "subtract_bias" =
      some "Shortened name for ccdproc command") ∧
    ((CCDData.insertInMetadataFitsSafe exBase "EXPTIME" (.num 30)).meta =
      .fitsHeader (hSet [] "EXPTIME" (.num 30) none) ∧
     hGet (hSet [] "EXPTIME" (.num 30) none) "EXPTIME" = some (.num 30)) :=
  ⟨fits_safe_insert_two_records.1 exBase [] "subtract_bias" "subbias" (.str "done")
      (by decide) (by decide),
   fits_safe_insert_two_records.2 exBase [] "EXPTIME" (.num 30) (by decide) (by decide)⟩

/-- Claim C8: unit resolution precedence on read.  When both an explicit unit
argument and a recorded (non-empty after the case patch) unit string exist,
the explicit argument wins and the override notice is logged; when only the
recorded unit exists, it is used, a recorded string equal to `adu` up to
letter case being lowercased first; when neither exists, the reader fails with
the mandatory-unit construction error. -/
theorem reader_unit_resolution_precedence :
    (∀ a s : String, a ≠ "" → normalizeBunit s ≠ "" →
      readerResolveUnit (some a) (some s) = (some a, true)) ∧
    (∀ s : String, readerResolveUnit none (some s) = (some (normalizeBunit s), false)) ∧
    (∀ s : String, strLower (strStrip s) = "adu" → normalizeBunit s = strLower s) ∧
    (∀ (d : NArr) (h : Header), hGet h "bunit" = none →
      fitsCcddataReader [⟨"PRIMARY", some d, h⟩] 0 none (some "UNCERT") (some "MASK") none [] =
        .error .unitMissing) := by
  refine ⟨?_, ?_, ?_, ?_⟩
  · intro a s ha hs
    simp [readerResolveUnit, pyOr, ha, hs]
  · intro s
    simp [readerResolveUnit, pyOr]
  · intro s hs
    simp [normalizeBunit, hs]
  · intro d h hb
    unfold fitsCcddataReader readerPre readerPost
    simp [bind, Except.bind, pure, Except.pure, memberName, hb, readerResolveUnit, pyOr,
          mkCCDData, metaOfArg, CCDData.setUncertainty, throw, throwThe, MonadExceptOf.throw]

/-- Witness for claim C8, at the explicit argument `m` against recorded `ADU`,
the recorded-only strings `ADU` and ` ADU `, and a one-record file without a
recorded unit read without a unit argument. -/
theorem reader_unit_resolution_precedence_witness :
    (readerResolveUnit (some "m") (some "ADU") = (some "m", true)) ∧
    (readerResolveUnit none (some " ADU ") = (some " adu ", false)) ∧
    (normalizeBunit "ADU" = strLower "ADU") ∧
    (fitsCcddataReader [⟨"PRIMARY", some ⟨[1], [1]⟩, []⟩] 0 none
        (some "UNCERT") (some "MASK") none [] = .error .unitMissing) := by
  refine ⟨reader_unit_resolution_precedence.1 "m" "ADU" (by decide) (by decide), ?_, ?_, ?_⟩
  · have := reader_unit_resolution_precedence.2.1 " ADU "
    rw [this]
    decide
  · exact reader_unit_resolution_precedence.2.2.1 "ADU" (by decide)
  · exact reader_unit_resolution_precedence.2.2.2 ⟨[1], [1]⟩ [] (by decide)

theorem mkCCDData_ok_data_unit (d : NArr) (u : PhysUnit) (mask : Option BArr)
    (unc : UncArg) (w : Option Wcs) (m hdrA : Option MetaArg) (r : CCDData)
    (h : mkCCDData d (some (.uobj u)) mask unc w m hdrA = .ok r) :
    r.data = d ∧ r.unit = some u := by
  unfold mkCCDData CCDData.setUncertainty at h
  cases unc with
  | rawArr a =>
    by_cases hsh : a.shape = d.shape <;> simp only [hsh, if_true, if_false] at h <;>
      (repeat' (first
         | (simp only [bind, Except.bind, pure, Except.pure, UnitArg.toUnit] at h; done)
         | simp [bind, Except.bind, pure, Except.pure, UnitArg.toUnit] at h
         | split at h)
       all_goals (first
         | (simp_all; done)
         | (subst h
            first
            | exact ⟨rfl, rfl⟩
            | (simp_all; done))))
  | _ =>
    repeat' (first
      | (simp only [bind, Except.bind, pure, Except.pure, UnitArg.toUnit] at h; done)
      | simp [bind, Except.bind, pure, Except.pure, UnitArg.toUnit] at h
      | split at h)
    all_goals (first
      | (simp_all; done)
      | (subst h
         first
         | exact ⟨rfl, rfl⟩
         | (simp_all; done)))

theorem mkCCDData_ok_uncertainty (d : NArr) (ua : Option UnitArg) (mask : Option BArr)
    (nu : NDUnc) (w : Option Wcs) (m hdrA : Option MetaArg) (r : CCDData)
    (h : mkCCDData d ua mask (.ndunc nu) w m hdrA = .ok r) :
    r.uncertainty = some nu := by
  unfold mkCCDData CCDData.setUncertainty at h
  repeat' (first
    | (simp only [bind, Except.bind, pure, Except.pure, UnitArg.toUnit] at h; done)
    | simp [bind, Except.bind, pure, Except.pure, UnitArg.toUnit] at h
    | split at h)
  all_goals (first
    | (simp_all; done)
    | (subst h
       first
       | exact rfl
       | (simp_all; done)))

theorem ccddataArithmetic_quant_addsub (f : CCDData) (q : Quantity) (op : OpKind)
    (su : PhysUnit) (r : CCDData)
    (hop : op.isAddSub = true) (hsu : f.unit = some su) (hne : q.unit ≠ su)
    (hdim : q.unit.dim = su.dim)
    (hres : f.ccddataArithmetic (.quant q) op false = .ok r) :
    r.data = NArr.mapScalar op f.data (qdiv (qmul q.value q.unit.scale) su.scale) ∧
    r.unit = some su := by
  have hne' : ¬(su = q.unit) := fun hc => hne hc.symm
  have hneq : ¬((some su : Option PhysUnit) = some q.unit) := by
    intro hc
    exact hne' (Option.some.inj hc)
  unfold CCDData.ccddataArithmetic at hres
  simp only [hsu] at hres
  simp [bind, Except.bind, pure, Except.pure, hop, hneq, hne', quantityToValue, hdim,
        qOpUnit] at hres
  repeat' (first
    | simp [bind, Except.bind, pure, Except.pure] at hres
    | split at hres)
  all_goals (first
    | (simp_all; done)
    | (exact mkCCDData_ok_data_unit _ _ _ _ _ _ _ _ hres))

theorem ccddataArithmetic_num_addsub (f : CCDData) (n : ℚ) (op : OpKind) (r : CCDData)
    (hop : op.isAddSub = true)
    (hres : f.ccddataArithmetic (.num n) op false = .ok r) :
    r.data = NArr.mapScalar op f.data n ∧ r.unit = f.unit := by
  unfold CCDData.ccddataArithmetic at hres
  cases hfu : f.unit with
  | none => simp [hfu, bind, Except.bind, pure, Except.pure] at hres
  | some su =>
    simp only [hfu] at hres
    by_cases hd : su.dim = "1"
    · simp [bind, Except.bind, pure, Except.pure, qOpUnit, hop, hd] at hres
      repeat' (first
        | simp [bind, Except.bind, pure, Except.pure] at hres
        | split at hres)
      all_goals (first
        | (simp_all; done)
        | (obtain ⟨h1, h2⟩ := mkCCDData_ok_data_unit _ _ _ _ _ _ _ _ hres
           exact ⟨h1, by simp [h2, hfu]⟩))
    · simp [bind, Except.bind, pure, Except.pure, qOpUnit, hop, hd] at hres

theorem ccddataArithmetic_scaled_num (f : CCDData) (n : ℚ) (op : OpKind)
    (un : NDUnc) (a : NArr) (r : CCDData)
    (hns : op.isAddSub = false)
    (hun : f.uncertainty = some un) (ha : un.arr = some a)
    (hres : f.ccddataArithmetic (.num n) op true = .ok r) :
    r.uncertainty = some (stdDev (some (NArr.mapScalar op a n))) := by
  cases op
  case addK => exact absurd hns (by decide)
  case subK => exact absurd hns (by decide)
  all_goals (
    unfold CCDData.ccddataArithmetic at hres
    simp only [hun, ha] at hres
    cases hfu : f.unit with
    | none => simp [hfu, bind, Except.bind, pure, Except.pure] at hres
    | some su =>
      simp only [hfu] at hres
      simp [bind, Except.bind, pure, Except.pure, qOpUnit] at hres
      repeat' (first
        | simp [bind, Except.bind, pure, Except.pure] at hres
        | split at hres)
      all_goals (first
        | (simp_all; done)
        | (exact mkCCDData_ok_uncertainty _ _ _ _ _ _ _ _ hres)))

theorem ccddataArithmetic_scaled_quant (f : CCDData) (q : Quantity) (op : OpKind)
    (un : NDUnc) (a : NArr) (r : CCDData)
    (hns : op.isAddSub = false)
    (hun : f.uncertainty = some un) (ha : un.arr = some a)
    (hres : f.ccddataArithmetic (.quant q) op true = .ok r) :
    r.uncertainty = some (stdDev (some (NArr.mapScalar op a q.value))) := by
  cases op
  case addK => exact absurd hns (by decide)
  case subK => exact absurd hns (by decide)
  all_goals (
    unfold CCDData.ccddataArithmetic at hres
    simp only [hun, ha] at hres
    cases hfu : f.unit with
    | none =>
      simp [hfu, bind, Except.bind, pure, Except.pure] at hres
      repeat' (first
        | simp [bind, Except.bind, pure, Except.pure] at hres
        | split at hres)
      all_goals (first
        | (simp_all; done)
        | (exact mkCCDData_ok_uncertainty _ _ _ _ _ _ _ _ hres))
    | some su =>
      simp only [hfu] at hres
      simp [bind, Except.bind, pure, Except.pure, qOpUnit] at hres
      repeat' (first
        | simp [bind, Except.bind, pure, Except.pure] at hres
        | split at hres)
      all_goals (first
        | (simp_all; done)
        | (exact mkCCDData_ok_uncertainty _ _ _ _ _ _ _ _ hres)))

theorem ccddataArithmetic_unscaled (f : CCDData) (o : Operand) (op : OpKind)
    (un : NDUnc) (a : NArr) (r : CCDData)
    (hun : f.uncertainty = some un) (ha : un.arr = some a)
    (hres : f.ccddataArithmetic o op false = .ok r) :
    r.uncertainty = some (stdDev (some a)) := by
  unfold CCDData.ccddataArithmetic at hres
  simp only [hun, ha] at hres
  repeat' (first
    | simp [bind, Except.bind, pure, Except.pure] at hres
    | split at hres)
  all_goals (first
    | (simp_all; done)
    | (exact mkCCDData_ok_uncertainty _ _ _ _ _ _ _ _ hres))

/-- Claim C5: for `add` and `subtract` between a frame and a unit-bearing
scalar whose unit differs from the frame's unit, whenever the call returns a
frame, the scalar's value has been converted into the frame's unit before the
operation and the result keeps the frame's unit; a plain number is applied
unconverted and the result likewise keeps the frame's unit. -/
theorem addsub_scalar_unit_conversion :
    (∀ (f : CCDData) (q : Quantity) (cw : Option String) (su : PhysUnit) (r : CCDData),
      f.unit = some su → q.unit ≠ su → q.unit.dim = su.dim →
      (CCDData.add f (.quant q) cw).result = .ok r →
      r.data = NArr.mapScalar .addK f.data (q.value * q.unit.scale / su.scale) ∧
      r.unit = some su) ∧
    (∀ (f : CCDData) (q : Quantity) (cw : Option String) (su : PhysUnit) (r : CCDData),
      f.unit = some su → q.unit ≠ su → q.unit.dim = su.dim →
      (CCDData.subtract f (.quant q) cw).result = .ok r →
      r.data = NArr.mapScalar .subK f.data (q.value * q.unit.scale / su.scale) ∧
      r.unit = some su) ∧
    (∀ (f : CCDData) (n : ℚ) (cw : Option String) (r : CCDData),
      (CCDData.add f (.num n) cw).result = .ok r →
      r.data = NArr.mapScalar .addK f.data n ∧ r.unit = f.unit) ∧
    (∀ (f : CCDData) (n : ℚ) (cw : Option String) (r : CCDData),
      (CCDData.subtract f (.num n) cw).result = .ok r →
      r.data = NArr.mapScalar .subK f.data n ∧ r.unit = f.unit) := by
  refine ⟨?_, ?_, ?_, ?_⟩
  · intro f q cw su r hsu hne hdim hres
    obtain ⟨h1, h2⟩ := ccddataArithmetic_quant_addsub f q .addK su r rfl hsu hne hdim hres
    exact ⟨by rw [h1, qdiv_eq, qmul_eq], h2⟩
  · intro f q cw su r hsu hne hdim hres
    obtain ⟨h1, h2⟩ := ccddataArithmetic_quant_addsub f q .subK su r rfl hsu hne hdim hres
    exact ⟨by rw [h1, qdiv_eq, qmul_eq], h2⟩
  · intro f n cw r hres
    exact ccddataArithmetic_num_addsub f n .addK r rfl hres
  · intro f n cw r hres
    exact ccddataArithmetic_num_addsub f n .subK r rfl hres

/-- Witness for claim C5: the spec's example `add(Frame([1,2,3], m),
Quantity(100, cm))` returns data `[2,3,4]` in metres. -/
theorem addsub_scalar_unit_conversion_witness :
    (CCDData.add exMeters (.quant ⟨100, cmU⟩) (some "first_found")).result =
      .ok { exMeters with data := ⟨[3], [2, 3, 4]⟩ } ∧
    ({ exMeters with data := ⟨[3], [2, 3, 4]⟩ } : CCDData).unit = some meterU := by
  have hres : (CCDData.add exMeters (.quant ⟨100, cmU⟩) (some "first_found")).result =
      .ok { exMeters with data := ⟨[3], [2, 3, 4]⟩ } := by decide
  refine ⟨hres, ?_⟩
  exact (addsub_scalar_unit_conversion.1 exMeters ⟨100, cmU⟩ (some "first_found") meterU
      { exMeters with data := ⟨[3], [2, 3, 4]⟩ } (by decide) (by decide) (by decide) hres).2

/-- Claim C6: when a frame carrying a standard-deviation uncertainty is
combined with a scalar, `multiply` and `divide` apply the same operator with
the same scalar to the uncertainty array, while `add` and `subtract` leave the
uncertainty array unchanged; in each case the result's uncertainty is
re-wrapped as the canonical standard-deviation representation. -/
theorem scalar_uncertainty_propagation :
    (∀ (f : CCDData) (n : ℚ) (cw : Option String) (un : NDUnc) (a : NArr) (r : CCDData),
      f.uncertainty = some un → un.arr = some a →
      (CCDData.multiply f (.num n) cw).result = .ok r →
      r.uncertainty = some (stdDev (some (NArr.mapScalar .mulK a n)))) ∧
    (∀ (f : CCDData) (n : ℚ) (cw : Option String) (un : NDUnc) (a : NArr) (r : CCDData),
      f.uncertainty = some un → un.arr = some a →
      (CCDData.divide f (.num n) cw).result = .ok r →
      r.uncertainty = some (stdDev (some (NArr.mapScalar .divK a n)))) ∧
    (∀ (f : CCDData) (q : Quantity) (cw : Option String) (un : NDUnc) (a : NArr) (r : CCDData),
      f.uncertainty = some un → un.arr = some a →
      (CCDData.multiply f (.quant q) cw).result = .ok r →
      r.uncertainty = some (stdDev (some (NArr.mapScalar .mulK a q.value)))) ∧
    (∀ (f : CCDData) (q : Quantity) (cw : Option String) (un : NDUnc) (a : NArr) (r : CCDData),
      f.uncertainty = some un → un.arr = some a →
      (CCDData.divide f (.quant q) cw).result = .ok r →
      r.uncertainty = some (stdDev (some (NArr.mapScalar .divK a q.value)))) ∧
    (∀ (f : CCDData) (n : ℚ) (cw : Option String) (un : NDUnc) (a : NArr) (r : CCDData),
      f.uncertainty = some un → un.arr = some a →
      (CCDData.add f (.num n) cw).result = .ok r →
      r.uncertainty = some (stdDev (some a))) ∧
    (∀ (f : CCDData) (q : Quantity) (cw : Option String) (un : NDUnc) (a : NArr) (r : CCDData),
      f.uncertainty = some un → un.arr = some a →
      (CCDData.add f (.quant q) cw).result = .ok r →
      r.uncertainty = some (stdDev (some a))) ∧
    (∀ (f : CCDData) (n : ℚ) (cw : Option String) (un : NDUnc) (a : NArr) (r : CCDData),
      f.uncertainty = some un → un.arr = some a →
      (CCDData.subtract f (.num n) cw).result = .ok r →
      r.uncertainty = some (stdDev (some a))) ∧
    (∀ (f : CCDData) (q : Quantity) (cw : Option String) (un : NDUnc) (a : NArr) (r : CCDData),
      f.uncertainty = some un → un.arr = some a →
      (CCDData.subtract f (.quant q) cw).result = .ok r →
      r.uncertainty = some (stdDev (some a))) := by
  refine ⟨?_, ?_, ?_, ?_, ?_, ?_, ?_, ?_⟩
  · intro f n cw un a r hun ha hres
    exact ccddataArithmetic_scaled_num f n .mulK un a r rfl hun ha hres
  · intro f n cw un a r hun ha hres
    exact ccddataArithmetic_scaled_num f n .divK un a r rfl hun ha hres
  · intro f q cw un a r hun ha hres
    exact ccddataArithmetic_scaled_quant f q .mulK un a r rfl hun ha hres
  · intro f q cw un a r hun ha hres
    exact ccddataArithmetic_scaled_quant f q .divK un a r rfl hun ha hres
  · intro f n cw un a r hun ha hres
    exact ccddataArithmetic_unscaled f (.num n) .addK un a r hun ha hres
  · intro f q cw un a r hun ha hres
    exact ccddataArithmetic_unscaled f (.quant q) .addK un a r hun ha hres
  · intro f n cw un a r hun ha hres
    exact ccddataArithmetic_unscaled f (.num n) .subK un a r hun ha hres
  · intro f q cw un a r hun ha hres
    exact ccddataArithmetic_unscaled f (.quant q) .subK un a r hun ha hres

/-- Witness for claim C6: the spec's example frame (data `[2,4]` in `adu`,
uncertainty `[1,1]`) multiplied by `3` gets uncertainty `[3,3]`, and adding
the quantity `5 adu` leaves the uncertainty `[1,1]` unchanged. -/
theorem scalar_uncertainty_propagation_witness :
    ((CCDData.multiply exUncFrame (.num 3) (some "first_found")).result =
      .ok { data := ⟨[2], [6, 12]⟩, unit := some aduU, mask := none,
            uncertainty := some (stdDev (some ⟨[2], [3, 3]⟩)), wcs := none,
            meta := .fitsHeader [], flags := none } ∧
     some (stdDev (some (⟨[2], [3, 3]⟩ : NArr))) =
      some (stdDev (some (NArr.mapScalar .mulK ⟨[2], [1, 1]⟩ 3)))) ∧
    ((CCDData.add exUncFrame (.quant ⟨5, aduU⟩) (some "first_found")).result =
      .ok { data := ⟨[2], [7, 9]⟩, unit := some aduU, mask := none,
            uncertainty := some (stdDev (some ⟨[2], [1, 1]⟩)), wcs := none,
            meta := .fitsHeader [], flags := none } ∧
     some (stdDev (some (⟨[2], [1, 1]⟩ : NArr))) = some (stdDev (some ⟨[2], [1, 1]⟩))) := by
  have h1 : (CCDData.multiply exUncFrame (.num 3) (some "first_found")).result =
      .ok { data := ⟨[2], [6, 12]⟩, unit := some aduU, mask := none,
            uncertainty := some (stdDev (some ⟨[2], [3, 3]⟩)), wcs := none,
            meta := .fitsHeader [], flags := none } := by decide
  have h2 : (CCDData.add exUncFrame (.quant ⟨5, aduU⟩) (some "first_found")).result =
      .ok { data := ⟨[2], [7, 9]⟩, unit := some aduU, mask := none,
            uncertainty := some (stdDev (some ⟨[2], [1, 1]⟩)), wcs := none,
            meta := .fitsHeader [], flags := none } := by decide
  refine ⟨⟨h1, ?_⟩, ⟨h2, ?_⟩⟩
  · exact scalar_uncertainty_propagation.1 exUncFrame 3 (some "first_found")
      (stdDev (some ⟨[2], [1, 1]⟩)) ⟨[2], [1, 1]⟩ _ (by decide) (by decide) h1
  · exact scalar_uncertainty_propagation.2.2.2.2.2.1 exUncFrame ⟨5, aduU⟩ (some "first_found")
      (stdDev (some ⟨[2], [1, 1]⟩)) ⟨[2], [1, 1]⟩ _ (by decide) (by decide) h2

/-- Claim C2, counterexample: on the delegate's error path the operands'
coordinate mappings are not restored.  Adding two frames of incompatible
shapes under `first_found` propagates the error, and afterwards the left
operand's mapping field is detached (`None`) although it held a mapping
before the call — so the operands are not bit-identical on every exit path. -/
theorem wcs_not_restored_on_error_cex :
    (CCDData.add exWcsA (.frame exShape3) (some "first_found")).result =
      .error .broadcastError ∧
    (CCDData.add exWcsA (.frame exShape3) (some "first_found")).selfAfter.wcs = none ∧
    exWcsA.wcs = some ⟨"RA---TAN"⟩ := by decide

theorem ffArith_first_found (op : OpKind) (f g r : CCDData)
    (hres : (CCDData.ffArith op f g (some "first_found")).1 = .ok r) :
    r.wcs = (if f.wcs.isSome then f.wcs else g.wcs) ∧
    (CCDData.ffArith op f g (some "first_found")).2.1 = f ∧
    (CCDData.ffArith op f g (some "first_found")).2.2 = g := by
  unfold CCDData.ffArith at hres ⊢
  cases hnd : ndArith op { f with wcs := none } { g with wcs := none } with
  | error e =>
    simp [hnd] at hres
  | ok r0 =>
    simp [hnd] at hres ⊢
    rw [← hres]

/-- Claim C2 as amended: combining two frames with `add`/`subtract`/`multiply`
/`divide` under policy `first_found`, whenever the delegated array arithmetic
succeeds (the call returns a frame), the result carries the left operand's
coordinate mapping if present, otherwise the right operand's, and both input
frames are bit-identical to their pre-call state; on the delegate's error
path, however, the operands' mappings are left detached (no restore runs). -/
theorem first_found_wcs_reconciliation_amended :
    (∀ f g r : CCDData, (CCDData.add f (.frame g) (some "first_found")).result = .ok r →
      r.wcs = (if f.wcs.isSome then f.wcs else g.wcs) ∧
      (CCDData.add f (.frame g) (some "first_found")).selfAfter = f ∧
      (CCDData.add f (.frame g) (some "first_found")).otherAfter = .frame g) ∧
    (∀ f g r : CCDData, (CCDData.subtract f (.frame g) (some "first_found")).result = .ok r →
      r.wcs = (if f.wcs.isSome then f.wcs else g.wcs) ∧
      (CCDData.subtract f (.frame g) (some "first_found")).selfAfter = f ∧
      (CCDData.subtract f (.frame g) (some "first_found")).otherAfter = .frame g) ∧
    (∀ f g r : CCDData, (CCDData.multiply f (.frame g) (some "first_found")).result = .ok r →
      r.wcs = (if f.wcs.isSome then f.wcs else g.wcs) ∧
      (CCDData.multiply f (.frame g) (some "first_found")).selfAfter = f ∧
      (CCDData.multiply f (.frame g) (some "first_found")).otherAfter = .frame g) ∧
    (∀ f g r : CCDData, (CCDData.divide f (.frame g) (some "first_found")).result = .ok r →
      r.wcs = (if f.wcs.isSome then f.wcs else g.wcs) ∧
      (CCDData.divide f (.frame g) (some "first_found")).selfAfter = f ∧
      (CCDData.divide f (.frame g) (some "first_found")).otherAfter = .frame g) := by
  refine ⟨?_, ?_, ?_, ?_⟩ <;>
    (intro f g r hres
     obtain ⟨h1, h2, h3⟩ := ffArith_first_found _ f g r hres
     exact ⟨h1, h2, congrArg Operand.frame h3⟩)

/-- Witness for claim C2 (amended): adding two shape-compatible `adu` frames,
the left one carrying a mapping, returns a frame with that mapping and leaves
both operands bit-identical to their pre-call state. -/
theorem first_found_wcs_reconciliation_amended_witness :
    ((CCDData.add exWcsA (.frame exShape2) (some "first_found")).result =
      .ok { data := ⟨[2], [4, 6]⟩, unit := some aduU, mask := none, uncertainty := none,
            wcs := some ⟨"RA---TAN"⟩, meta := .fitsHeader [], flags := none }) ∧
    (CCDData.add exWcsA (.frame exShape2) (some "first_found")).selfAfter = exWcsA ∧
    (CCDData.add exWcsA (.frame exShape2) (some "first_found")).otherAfter =
      .frame exShape2 := by
  have hres : (CCDData.add exWcsA (.frame exShape2) (some "first_found")).result =
      .ok { data := ⟨[2], [4, 6]⟩, unit := some aduU, mask := none, uncertainty := none,
            wcs := some ⟨"RA---TAN"⟩, meta := .fitsHeader [], flags := none } := by decide
  obtain ⟨h1, h2, h3⟩ := first_found_wcs_reconciliation_amended.1 exWcsA exShape2 _ hres
  exact ⟨hres, h2, h3⟩

theorem hExtendUpdate_single (h : Header) (c : HCard) :
    hExtendUpdate h [c] = hSet h c.key c.val c.comment := rfl

theorem toHdu_default_shape (f : CCDData) (u : PhysUnit) (m : BArr) (un : NDUnc)
    (hu : f.unit = some u) (hnd : u ≠ dimensionlessU)
    (hm : f.mask = some m) (hun : f.uncertainty = some un)
    (hcls : un.cls = "StdDevUncertainty") (huu : un.unit = none ∨ un.unit = some u) :
    ∃ H : Header,
      f.toHdu (some "MASK") (some "UNCERT") none =
        .ok [⟨"PRIMARY", some f.data, H⟩, ⟨"MASK", some (uint8OfBArr m), []⟩,
             ⟨"UNCERT", un.arr, []⟩] ∧
      hGet H "bunit" = some (.str (unitToString u)) := by
  have hms : truthyName (some "MASK") = true := by decide
  have hus : truthyName (some "UNCERT") = true := by decide
  have hcb : ("bunit" : String) ≠ "CTYPE1" := by decide
  cases hmt : f.meta with
  | fitsHeader h0 =>
    cases hwc : f.wcs with
    | none =>
      refine ⟨hSet h0 "bunit" (.str (unitToString u)) none, ?_,
        hGet_hSet_self h0 "bunit" (.str (unitToString u)) none⟩
      unfold CCDData.toHdu CCDData.toHduPre
      rcases huu with huu | huu <;>
        simp [hmt, hwc, hu, hnd, hm, hun, hcls, huu, hms, hus, truthyName,
          bind, Except.bind, pure, Except.pure]
    | some w =>
      refine ⟨hExtendUpdate (hSet h0 "bunit" (.str (unitToString u)) none) (wcsToHeader w),
        ?_, ?_⟩
      · unfold CCDData.toHdu CCDData.toHduPre
        rcases huu with huu | huu <;>
          simp [hmt, hwc, hu, hnd, hm, hun, hcls, huu, hms, hus, truthyName,
            bind, Except.bind, pure, Except.pure]
      · rw [show wcsToHeader w = [⟨"CTYPE1", .str w.ctype1, none⟩] from rfl,
          hExtendUpdate_single, hGet_hSet_ne _ "CTYPE1" "bunit" _ _ hcb]
        exact hGet_hSet_self h0 "bunit" (.str (unitToString u)) none
  | plainDict d0 =>
    cases hwc : f.wcs with
    | none =>
      refine ⟨hSet (d0.foldl (fun acc kv => insertFitsSafeHeader acc kv.1 kv.2) ([] : Header))
          "bunit" (.str (unitToString u)) none, ?_,
        hGet_hSet_self _ "bunit" (.str (unitToString u)) none⟩
      unfold CCDData.toHdu CCDData.toHduPre
      rcases huu with huu | huu <;>
        simp [hmt, hwc, hu, hnd, hm, hun, hcls, huu, hms, hus, truthyName,
          bind, Except.bind, pure, Except.pure]
    | some w =>
      refine ⟨hExtendUpdate (hSet (d0.foldl (fun acc kv => insertFitsSafeHeader acc kv.1 kv.2)
          ([] : Header)) "bunit" (.str (unitToString u)) none) (wcsToHeader w), ?_, ?_⟩
      · unfold CCDData.toHdu CCDData.toHduPre
        rcases huu with huu | huu <;>
          simp [hmt, hwc, hu, hnd, hm, hun, hcls, huu, hms, hus, truthyName,
            bind, Except.bind, pure, Except.pure]
      · rw [show wcsToHeader w = [⟨"CTYPE1", .str w.ctype1, none⟩] from rfl,
          hExtendUpdate_single, hGet_hSet_ne _ "CTYPE1" "bunit" _ _ hcb]
        exact hGet_hSet_self _ "bunit" (.str (unitToString u)) none

theorem reader_of_written (H : Header) (d : NArr) (bm : BArr) (ua : Option NArr)
    (s : String) (u : PhysUnit)
    (hb : hGet H "bunit" = some (.str s)) (hp : parseUnit s = some u)
    (hsh : bm.shape = d.shape) :
    fitsCcddataReader
        [⟨"PRIMARY", some d, H⟩, ⟨"MASK", some (uint8OfBArr bm), []⟩, ⟨"UNCERT", ua, []⟩]
        0 none (some "UNCERT") (some "MASK") none [] =
      .ok { data := d, unit := some u, mask := some bm,
            uncertainty := some (stdDev ua),
            wcs := (if (wcsFromHeader H).ctype1 ≠ "" then some (wcsFromHeader H) else none),
            meta := .fitsHeader H, flags := none } := by
  have hnorm : normalizeBunit s = s := normalizeBunit_of_parse s u hp
  have e1 : (("PRIMARY" : String) == "UNCERT") = false := by decide
  have e2 : (("MASK" : String) == "UNCERT") = false := by decide
  have e3 : (("UNCERT" : String) == "UNCERT") = true := by decide
  have e4 : (("PRIMARY" : String) == "MASK") = false := by decide
  have e5 : (("MASK" : String) == "MASK") = true := by decide
  unfold fitsCcddataReader readerPre readerPost mkCCDData CCDData.setUncertainty
  simp [bind, Except.bind, pure, Except.pure, memberName, findByName, List.contains,
        e1, e2, e3, e4, e5, hb, hnorm, hp, hsh, boolOfNArr_uint8, readerResolveUnit,
        pyOr, UnitArg.toUnit, metaOfArg]

/-- Claim C1, counterexample: a dimensionless frame with a mask and a
standard-deviation uncertainty does not round-trip.  `to_hdu` records no
`bunit` for the dimensionless unit, so reading the written records back (with
no unit argument, as the claimed round trip does) fails with the
mandatory-unit construction error instead of yielding an equal frame. -/
theorem roundtrip_dimensionless_cex :
    writeReadDefault exDimless = .error .unitMissing := by decide

/-- Claim C1 as amended: every frame with an array mask matching the data
shape, a canonical standard-deviation uncertainty whose unit (if any) equals
the frame's, and a non-dimensionless unit that the external unit parser round
trips, written with the default record names and read back with the default
arguments, yields a frame whose data, mask, unit and uncertainty array are
element-wise equal to the original's. -/
theorem roundtrip_preserves_fields_amended :
    ∀ (f : CCDData) (u : PhysUnit) (m : BArr) (un : NDUnc),
      f.unit = some u → u ≠ dimensionlessU → parseUnit (unitToString u) = some u →
      f.mask = some m → m.shape = f.data.shape →
      f.uncertainty = some un → un.cls = "StdDevUncertainty" →
      (un.unit = none ∨ un.unit = some u) →
      ∃ g : CCDData, writeReadDefault f = .ok g ∧
        g.data = f.data ∧ g.mask = f.mask ∧ g.unit = f.unit ∧
        ∃ gu : NDUnc, g.uncertainty = some gu ∧ gu.arr = un.arr := by
  intro f u m un hu hnd hp hm hsh hun hcls huu
  obtain ⟨H, hw, hb⟩ := toHdu_default_shape f u m un hu hnd hm hun hcls huu
  have hr := reader_of_written H f.data m un.arr (unitToString u) u hb hp hsh
  refine ⟨{ data := f.data, unit := some u, mask := some m,
            uncertainty := some (stdDev un.arr),
            wcs := (if (wcsFromHeader H).ctype1 ≠ "" then some (wcsFromHeader H) else none),
            meta := .fitsHeader H, flags := none }, ?_,
          rfl, hm.symm, hu.symm, stdDev un.arr, rfl, rfl⟩
  unfold writeReadDefault fitsCcddataWriter
  rw [hw]
  simpa [bind, Except.bind] using hr

/-- Witness for claim C1 (amended): the `adu` frame `exFull`, carrying a mask,
a standard-deviation uncertainty, a coordinate mapping and metadata, round
trips with its data, mask, unit and uncertainty array preserved. -/
theorem roundtrip_preserves_fields_amended_witness :
    ∃ g : CCDData, writeReadDefault exFull = .ok g ∧
      g.data = exFull.data ∧ g.mask = exFull.mask ∧ g.unit = exFull.unit ∧
      ∃ gu : NDUnc, g.uncertainty = some gu ∧ gu.arr = some ⟨[2], [1, 2]⟩ :=
  roundtrip_preserves_fields_amended exFull aduU ⟨[2], [true, false]⟩
    (stdDev (some ⟨[2], [1, 2]⟩)) (by decide) (by decide) (by decide) (by decide)
    (by decide) (by decide) (by decide) (by decide)
